import Mathlib

/-!
Verification development for the `rename_courbes` matching-and-renaming
utility.  The repository holds two copies of the script:

* `rename_courbes.py` (the working copy, referred to below as the *main copy*);
* `scripts/rename_courbes.py` (the *scripts copy*).

The definitions below are a shallow embedding of the main copy unless the
doc comment says otherwise.  File names, user identifiers and registry cells
are Lean `String`s; all character-level work (prefix tests, lower-casing,
suffix tests, ordering) is done on `String.data`, the underlying list of
characters, which matches the per-code-point semantics of the Python string
operations used by the script.
-/

namespace RenameCourbes

/-! ## Timestamps

`datetime` / pandas `Timestamp` values are modelled by their seven calendar
components.  The script only ever compares timestamps (`<=` between the
folder timestamp and the two registry columns), and comparison of valid
calendar datetimes is lexicographic on the components, which the mixed-radix
`key` below realises (every component is strictly below the radix used for
it). -/

/-- A calendar datetime: year, month, day, hour, minute, second,
microsecond. -/
structure DT where
  year : Nat
  month : Nat
  day : Nat
  hour : Nat
  minute : Nat
  second : Nat
  micro : Nat
deriving DecidableEq, Repr

/-- Mixed-radix encoding of a datetime; on calendar-valid datetimes it is
order-isomorphic to chronological order (each component is below its
radix: month `<= 12 < 100`, day `<= 31 < 100`, hour `<= 23 < 100`,
minute and second `<= 59 < 100`, microsecond `< 10^6`). -/
def DT.key (t : DT) : Nat :=
  ((((((t.year * 100 + t.month) * 100 + t.day) * 100 + t.hour) * 100 +
      t.minute) * 100 + t.second)) * 1000000 + t.micro

/-- Chronological comparison of two datetimes, as used by the pandas mask
`df[col] <= dossier_dt` (lines 193-196 of the main copy). -/
def DT.le (a b : DT) : Prop := a.key ≤ b.key

instance : DecidableRel DT.le := fun a b => (inferInstance : Decidable (a.key ≤ b.key))

/-! ## Character-level helpers

Python `str` operations used by the script, modelled on `String.data`. -/

/-- Python `s.lower()` restricted to the ASCII range, per character. -/
def lowerChars (s : String) : List Char := s.data.map Char.toLower

/-- Python `f.lower().endswith(".png")` (line 220 of the main copy). -/
def isPngName (f : String) : Bool := List.isSuffixOf ".png".data (lowerChars f)

/-- Python `foldername.startswith("taxan_")` (lines 41 and 176). -/
def hasTaxanPrefix (name : String) : Bool := List.isPrefixOf "taxan_".data name.data

/-- Python string comparison (code-point lexicographic), the order used by
`list.sort()` at lines 166 and 227. -/
def strLe (a b : String) : Prop := a.data ≤ b.data

instance : DecidableRel strLe := fun a b => (inferInstance : Decidable (a.data ≤ b.data))

instance : IsTrans String strLe := ⟨fun _ _ _ h₁ h₂ => le_trans h₁ h₂⟩

instance : IsTotal String strLe := ⟨fun a b => le_total a.data b.data⟩

instance : IsAntisymm String strLe := ⟨fun _ _ h₁ h₂ => String.ext (le_antisymm h₁ h₂)⟩

/-- Strict code-point order on strings. -/
def strLt (a b : String) : Prop := a.data < b.data

instance : DecidableRel strLt := fun a b => (inferInstance : Decidable (a.data < b.data))

/-- Python `sorted` / `list.sort()` on strings (stable; on `Nodup` inputs any
sort agrees, and the script only sorts directory listings, which carry no
duplicate names). -/
def sortStrings (l : List String) : List String := l.insertionSort strLe

/-! ## Parsing digit groups

`datetime.strptime` splits its input against the literal separators of the
format and converts each digit group with bounds checks; CPython matches
`%Y` against exactly four digits and the two-digit directives against one
or two digits, then the `datetime` constructor validates ranges. -/

/-- Split a list of characters at every occurrence of the separator
character (Python-style `split` with a one-character separator). -/
def splitOnChar (sep : Char) : List Char → List (List Char)
  | [] => [[]]
  | c :: rest =>
    let r := splitOnChar sep rest
    if c = sep then [] :: r
    else
      match r with
      | [] => [[c]]
      | g :: gs => (c :: g) :: gs

/-- Numeric value of a list of decimal digit characters. -/
def digitsVal (l : List Char) : Nat := l.foldl (fun a c => a * 10 + (c.toNat - 48)) 0

/-- A digit group of between `lo` and `hi` digits, as matched by the
`strptime` regular expressions (`%Y`: exactly 4; `%m`, `%d`, `%H`, `%M`,
`%S`: 1 or 2; `%f`: 1 to 6). -/
def parseDigits (lo hi : Nat) (l : List Char) : Option Nat :=
  if lo ≤ l.length ∧ l.length ≤ hi ∧ l.all Char.isDigit then some (digitsVal l)
  else none

/-- Gregorian leap-year test, as used by `datetime` day validation. -/
def isLeap (y : Nat) : Bool := (y % 4 == 0 && y % 100 != 0) || y % 400 == 0

/-- Number of days in a month, as used by `datetime` day validation. -/
def daysInMonth (y m : Nat) : Nat :=
  if m = 2 then (if isLeap y then 29 else 28)
  else if m = 4 ∨ m = 6 ∨ m = 9 ∨ m = 11 then 30
  else 31

/-- The range checks performed by the `datetime` constructor (a
`strptime` whose groups matched still raises `ValueError` when the day
does not exist in the month, or a component is out of range). -/
def mkDT (y mo d h mi s us : Nat) : Option DT :=
  if 1 ≤ y ∧ y ≤ 9999 ∧ 1 ≤ mo ∧ mo ≤ 12 ∧ 1 ≤ d ∧ d ≤ daysInMonth y mo ∧
     h ≤ 23 ∧ mi ≤ 59 ∧ s ≤ 59 ∧ us ≤ 999999
  then some (DT.mk y mo d h mi s us)
  else none

/-- `datetime.strptime(ts_str, "%Y-%m-%d-%H-%M-%S")` (line 44 of both
copies): six dash-separated digit groups, full-string match, with
`datetime` range validation.  `none` models the raised `ValueError`. -/
def strptimeFolderTs (s : String) : Option DT :=
  match splitOnChar ('-') s.data with
  | [ys, ms, ds, hs, mis, ss] =>
    match parseDigits 4 4 ys, parseDigits 1 2 ms, parseDigits 1 2 ds,
          parseDigits 1 2 hs, parseDigits 1 2 mis, parseDigits 1 2 ss with
    | some y, some mo, some d, some h, some mi, some sec => mkDT y mo d h mi sec 0
    | _, _, _, _, _, _ => none
  | _ => none

/-- `parse_datetime_from_foldername` (lines 32-44 of both copies): checks
the `taxan_` magic word, then parses the remainder of the folder name.
`none` models the raised `ValueError` (either from the explicit `raise` or
from `strptime`). -/
def parse_datetime_from_foldername (foldername : String) : Option DT :=
  if hasTaxanPrefix foldername then
    strptimeFolderTs (String.mk (foldername.data.drop 6))
  else none

/-! ## Registry loading (Excel columns)

The main copy reads the sheet, checks the required columns, then converts
the two timestamp columns with `pd.to_datetime(..., errors="coerce")` in
two stages (lines 104-142), and finally drops rows whose converted cells
are `NaT`.  The column names contain accents and an apostrophe in the
source; they are opaque tokens for the logic, and are transliterated to
plain ASCII here. -/

/-- `pd.to_datetime(cell, format="%Y-%m-%dT%H:%M:%S.%fZ", errors="coerce")`
on a single string cell: date part of four-digit year, month, day; literal
`T`; time groups; literal `.`; fractional-second group of 1 to 6 digits,
right-padded to microseconds; literal trailing `Z`.  (The narrower
nanosecond-precision bounds of pandas `Timestamp` are not modelled; no
property below depends on them.) -/
def parseCellFmt1 (s : String) : Option DT :=
  match splitOnChar ('T') s.data with
  | [datePart, timePart] =>
    match splitOnChar ('-') datePart with
    | [ys, ms, ds] =>
      match splitOnChar (':') timePart with
      | [hs, mis, seczPart] =>
        match splitOnChar ('.') seczPart with
        | [ss, fz] =>
          match fz.reverse with
          | z :: fsRev =>
            if z = 'Z' then
              let fs := fsRev.reverse
              match parseDigits 4 4 ys, parseDigits 1 2 ms, parseDigits 1 2 ds,
                    parseDigits 1 2 hs, parseDigits 1 2 mis, parseDigits 1 2 ss,
                    parseDigits 1 6 fs with
              | some y, some mo, some d, some h, some mi, some sec, some f =>
                mkDT y mo d h mi sec (f * 10 ^ (6 - fs.length))
              | _, _, _, _, _, _, _ => none
            else none
          | [] => none
        | _ => none
      | _ => none
    | _ => none
  | _ => none

/-- `pd.to_datetime(cell, format="%Y-%m-%dT%H:%M:%SZ", errors="coerce")` on
a single string cell: as `parseCellFmt1` but with no fractional-second
part and a literal `Z` directly after the seconds group. -/
def parseCellFmt2 (s : String) : Option DT :=
  match splitOnChar ('T') s.data with
  | [datePart, timePart] =>
    match splitOnChar ('-') datePart with
    | [ys, ms, ds] =>
      match splitOnChar (':') timePart with
      | [hs, mis, seczPart] =>
        match seczPart.reverse with
        | z :: ssRev =>
          if z = 'Z' then
            let ss := ssRev.reverse
            match parseDigits 4 4 ys, parseDigits 1 2 ms, parseDigits 1 2 ds,
                  parseDigits 1 2 hs, parseDigits 1 2 mis, parseDigits 1 2 ss with
            | some y, some mo, some d, some h, some mi, some sec =>
              mkDT y mo d h mi sec 0
            | _, _, _, _, _, _ => none
          else none
        | [] => none
      | _ => none
    | _ => none
  | _ => none

/-- A raw registry row as read by `read_excel`: the `ID` cell (already a
string via `dtype` / `astype(str)`) and the two timestamp cells as
strings. -/
structure RawRow where
  id : String
  regStr : String
  majStr : String
deriving DecidableEq, Repr

/-- A loaded registry record. -/
structure Record where
  id : String
  validFrom : DT
  validTo : DT
deriving DecidableEq, Repr

/-- The two-stage cell conversion of the main copy, lines 104-142.  Stage
one overwrites the column with `to_datetime(col, format1, coerce)`, so a
cell that fails format 1 becomes `NaT`.  The second stage (lines 114-120
and 129-135) applies `to_datetime(..., format2, coerce)` to
`df.loc[mask_nan, col]`, which at that point reads the *already
overwritten* column: its values are `NaT`, not the original strings, and
`to_datetime` maps `NaT` to `NaT`.  The second format therefore never
rescues a cell. -/
def parseCellStaged (s : String) : Option DT :=
  match parseCellFmt1 s with
  | some d => some d
  | none =>
    -- second stage: to_datetime over the NaT cells of the overwritten
    -- column; to_datetime(NaT, format=..., errors="coerce") = NaT
    none

/-- Column conversion plus `df.dropna(subset=[...])` (lines 104-142): a row
survives exactly when both converted cells are non-`NaT`. -/
def loadRegistry (rows : List RawRow) : List Record :=
  rows.filterMap fun r =>
    match parseCellStaged r.regStr, parseCellStaged r.majStr with
    | some a, some b => some (Record.mk r.id a b)
    | _, _ => none

/-! ## Matcher -/

/-- The boolean mask and row selection of lines 193-197 of the main copy:
records whose interval `[validFrom, validTo]` contains the folder
timestamp, in registry load order. -/
def matchCandidates (df : List Record) (t : DT) : List Record :=
  df.filter fun r => decide (DT.le r.validFrom t) && decide (DT.le t r.validTo)

/-! ## Renamer -/

/-- The target name `f"{user_id}_courbe{idx}.png"` (line 233). -/
def targetName (userId : String) (idx : Nat) : String :=
  userId ++ "_courbe" ++ Nat.repr idx ++ ".png"

/-- The `.png` filter of the directory listing (lines 218-221); every entry
of the model folder is a plain file, so the `os.path.isfile` conjunct is
identically true. -/
def pngFilter (files : List String) : List String := files.filter isPngName

/-- The sorted, 1-based-enumerated rename plan of lines 227-231:
`enumerate(png_files, start=1)` after `png_files.sort()`. -/
def planOf (files : List String) : List (Nat × String) :=
  (sortStrings (pngFilter files)).enumFrom 1

/-- State of one folder during the rename loop: the set of file names
currently on disk in the folder, and the number of renames executed so far
(the folder contribution to `total_png_renommes`). -/
structure FState where
  disk : List String
  renamed : Nat
deriving DecidableEq, Repr

/-- One iteration of the rename loop, lines 231-250 of the main copy:
skip when the target exists and differs from the source (lines 236-239);
skip when the source already has the target name (lines 241-243);
otherwise `os.rename` (lines 245-250) — which succeeds when the source
exists, removing the source name and creating the target name, and whose
failure (source vanished) is caught and leaves counters unchanged. -/
def renameStep (userId : String) (st : FState) (idx : Nat) (old : String) : FState :=
  let newName := targetName userId idx
  if newName ∈ st.disk ∧ old ≠ newName then st
  else if old = newName then st
  else if old ∈ st.disk then
    FState.mk (newName :: st.disk.erase old) (st.renamed + 1)
  else st

/-- The rename loop over a plan (the `for idx, old_fname in enumerate(...)`
loop of lines 231-250). -/
def runPlan (userId : String) (st : FState) : List (Nat × String) → FState
  | [] => st
  | (idx, old) :: rest => runPlan userId (renameStep userId st idx old) rest

/-- Process the rename phase of one matched folder: list, filter, sort,
enumerate, rename (lines 218-250).  (The early `continue` when no `.png`
file is present, lines 222-224, only skips logging: running the empty plan
leaves the state unchanged.) -/
def renameFolderFiles (userId : String) (files : List String) : FState :=
  runPlan userId (FState.mk files 0) (planOf files)

/-! ## Run orchestrator

The loop of lines 165-250 of the main copy.  A capture-root entry is a
subdirectory name plus the names of the plain files inside it (the
`os.path.isdir` test at line 174 restricts the loop to subdirectories, and
non-directory entries inside a capture folder are not modelled — every
listed name is a file). -/

/-- A subdirectory of the capture root. -/
structure Folder where
  name : String
  files : List String
deriving DecidableEq, Repr

/-- Folder order used by `dossiers.sort()` (line 166). -/
def folderLe (a b : Folder) : Prop := strLe a.name b.name

instance : DecidableRel folderLe := fun a b =>
  (inferInstance : Decidable (strLe a.name b.name))

instance : IsTrans Folder folderLe :=
  ⟨fun _ _ _ h₁ h₂ => Trans.trans (r := strLe) (s := strLe) h₁ h₂⟩

instance : IsTotal Folder folderLe := ⟨fun a b => IsTotal.total (r := strLe) a.name b.name⟩

/-- `dossiers.sort()` at line 166. -/
def sortFolders (l : List Folder) : List Folder := l.insertionSort folderLe

/-- The contribution of one loop iteration to the four run counters
(`total_dossiers`, `total_png_renommes`, `total_non_trouves`,
`total_conflits`), together with the folder file set it leaves on disk. -/
structure FolderResult where
  dossiersD : Nat
  renamedD : Nat
  nonTrouvesD : Nat
  conflitsD : Nat
  newFiles : List String
deriving DecidableEq, Repr

/-- One iteration of the orchestration loop (lines 172-250 of the main
copy): skip silently unless the entry name carries the `taxan_` magic word
(line 176); count the folder; on a name-parse failure count it unmatched
and continue (lines 182-187); build the candidate mask (lines 193-197); on
an empty match count unmatched and continue (lines 199-206); on a multiple
match count one conflict and proceed (lines 208-213); take
`candidats.iloc[0]["ID"]` (line 214) and run the rename loop. -/
def processOne (df : List Record) (fl : Folder) : FolderResult :=
  if hasTaxanPrefix fl.name then
    match parse_datetime_from_foldername fl.name with
    | none => FolderResult.mk 1 0 1 0 fl.files
    | some dt =>
      match matchCandidates df dt with
      | [] => FolderResult.mk 1 0 1 0 fl.files
      | c :: rest =>
        let conf := if rest.isEmpty then 0 else 1
        let st := renameFolderFiles c.id fl.files
        FolderResult.mk 1 st.renamed 0 conf st.disk
  else FolderResult.mk 0 0 0 0 fl.files

/-- The four run counters of lines 167-170. -/
structure RunTotals where
  dossiers : Nat
  renamed : Nat
  nonTrouves : Nat
  conflits : Nat
deriving DecidableEq, Repr

/-- Run the loop over a list of folders, returning the final counters and
the folders (with their on-disk file sets) as the loop leaves them.  The
loop accumulates the counters left to right with `+=`; since each
iteration reads only its own folder and the immutable registry, the
counters are the componentwise sums of the per-folder contributions, which
the right fold below computes. -/
def runFolders (df : List Record) : List Folder → RunTotals × List Folder
  | [] => (RunTotals.mk 0 0 0 0, [])
  | fl :: rest =>
    let r := processOne df fl
    let t := runFolders df rest
    (RunTotals.mk (r.dossiersD + t.1.dossiers) (r.renamedD + t.1.renamed)
       (r.nonTrouvesD + t.1.nonTrouves) (r.conflitsD + t.1.conflits),
     Folder.mk fl.name r.newFiles :: t.2)

/-- The whole folder phase of a run (lines 165-250): sort the capture-root
listing, then loop. -/
def runAll (df : List Record) (folders : List Folder) : RunTotals × List Folder :=
  runFolders df (sortFolders folders)

/-! ## Process entry and exit (main copy)

The precondition checks of `main` (lines 76-102) and the final implicit
return (exit status 0).  The environment collects what the external world
answers to each probe of the script. -/

/-- The three required column names (line 97); the accented and
apostrophised French originals are transliterated to plain ASCII — they
are opaque tokens to the logic. -/
def requiredCols : List String := ["ID", "Date enregistrement", "Derniere mise a jour"]

/-- What the filesystem and the Excel reader answer to the script. -/
structure Env where
  excelIsFile : Bool
  taxanIsDir : Bool
  excelRead : Except String (List String × List RawRow)
  folders : List Folder
deriving Repr

/-- `main` of the main copy, up to its observable outcome: `Except.error
code` models `sys.exit(code)` on a fatal precondition (lines 76-102), and
`Except.ok` carries the counters and final folder states of a completed
run.  The `try` around the column conversions (lines 105-139) cannot fire
because every conversion uses `errors="coerce"`; the redundant
`os.path.exists` re-check of the capture root (lines 161-163) is subsumed
by the `os.path.isdir` check already made at line 80. -/
def mainRun (env : Env) : Except Nat (RunTotals × List Folder) :=
  if env.excelIsFile = false then Except.error 1
  else if env.taxanIsDir = false then Except.error 1
  else
    match env.excelRead with
    | Except.error _ => Except.error 1
    | Except.ok (cols, rows) =>
      if requiredCols.all (fun c => decide (c ∈ cols)) = false then Except.error 1
      else Except.ok (runAll (loadRegistry rows) env.folders)

/-- The process exit status of the main copy: the code passed to
`sys.exit`, or 0 when `main` returns normally. -/
def mainExit (env : Env) : Nat :=
  match mainRun env with
  | Except.error c => c
  | Except.ok _ => 0

/-! ## The scripts copy

`scripts/rename_courbes.py` differs in its argument handling: its parser
defines exactly the destinations `excel` (from `--excel`) and `taxan_dir`
(from `--taxan-dir`), lines 55-70, but lines 72-80 read `args.tan_dir` and
`args.taxon_dir`.  A Python conditional expression evaluates only the
selected branch, so line 73 (`args.taxon_dir if False else args.tan_dir`)
evaluates exactly `args.tan_dir`. -/

/-- Attribute names defined on the argparse namespace by the scripts copy
(argparse turns `--taxan-dir` into the destination `taxan_dir`). -/
def scriptsNamespaceAttrs : List String := ["excel", "taxan_dir"]

/-- Python attribute access on the namespace: `Except.error a` models an
`AttributeError` naming the missing attribute `a`. -/
def nsGetattr (attrs : List String) (a : String) : Except String Unit :=
  if a ∈ attrs then Except.ok () else Except.error a

/-- The statement sequence of the scripts copy, lines 72-80, in evaluation
order: `args.excel` (72), `args.tan_dir` (73, the selected branch of the
conditional expression), `args.taxon_dir` (75), `args.excel` (79),
`args.taxon_dir` (80).  The first failing access aborts `main` with an
uncaught `AttributeError`. -/
def scriptsArgPhase : Except String Unit := do
  nsGetattr scriptsNamespaceAttrs "excel"
  nsGetattr scriptsNamespaceAttrs "tan_dir"
  nsGetattr scriptsNamespaceAttrs "taxon_dir"
  nsGetattr scriptsNamespaceAttrs "excel"
  nsGetattr scriptsNamespaceAttrs "taxon_dir"

/-- `main` of the scripts copy: the argument phase runs before any
filesystem or registry access, so an `AttributeError` there is the whole
observable behaviour — no precondition check, registry read or rename is
reached.  `Except.error a` is the uncaught `AttributeError` for attribute
`a`. -/
def scriptsMain (env : Env) : Except String Nat :=
  match scriptsArgPhase with
  | Except.error a => Except.error a
  | Except.ok _ =>
    -- unreachable for this copy; included so that the two copies are
    -- comparable as functions of the same environment
    Except.ok (mainExit env)

/-! ## Derived notions used in the statements below -/

/-- The rename plan of a folder as a source-to-target map: the pairs
`(old_fname, new_fname)` computed by lines 231-234 for a given file
listing. -/
def renamePlan (userId : String) (files : List String) : List (String × String) :=
  (planOf files).map fun p => (p.2, targetName userId p.1)

/-- The identifier the orchestrator would rename with for a given folder
name: `none` when the folder is skipped (no magic word, malformed
timestamp, or empty candidate set), otherwise the `ID` of the first
matching record in load order. -/
def matchedId (df : List Record) (name : String) : Option String :=
  if hasTaxanPrefix name then
    match parse_datetime_from_foldername name with
    | none => none
    | some dt => (matchCandidates df dt).head?.map Record.id
  else none

/-- Along the execution of a plan, no iteration hits the target-exists
skip of lines 236-239: at every step, the computed target does not name an
existing file other than the source itself. -/
def planCollisionFree (userId : String) : FState → List (Nat × String) → Bool
  | _, [] => true
  | st, (idx, old) :: rest =>
    !(decide (targetName userId idx ∈ st.disk) && decide (old ≠ targetName userId idx)) &&
    planCollisionFree userId (renameStep userId st idx old) rest

/-- A folder on which the first pass is clean: its listing has no duplicate
names (true of every real directory listing) and, when it is matched, its
rename loop never hits the target-exists skip. -/
def firstPassClean (df : List Record) (fl : Folder) : Bool :=
  decide fl.files.Nodup &&
  match matchedId df fl.name with
  | some uid => planCollisionFree uid (FState.mk fl.files 0) (planOf fl.files)
  | none => true

/-- The fatal preconditions named by the specification: registry file
missing, capture root missing, unreadable registry, or a required column
absent from the sheet. -/
def FatalPrecondition (env : Env) : Prop :=
  env.excelIsFile = false ∨ env.taxanIsDir = false ∨
  (∃ e, env.excelRead = Except.error e) ∨
  (∃ cols rows, env.excelRead = Except.ok (cols, rows) ∧ ∃ c ∈ requiredCols, c ∉ cols)

/-- A registry cell that neither accepted format parses. -/
def unparsableCell (s : String) : Prop :=
  parseCellFmt1 s = none ∧ parseCellFmt2 s = none

/-! ## Helper lemmas -/

/-- A file that is never the source of a plan entry survives the whole
rename loop: the loop removes a name from disk only as the source of an
executed rename. -/
theorem mem_disk_runPlan_of_not_source (uid : String) :
    ∀ (ps : List (Nat × String)) (st : FState) (f : String),
      f ∈ st.disk → (∀ p ∈ ps, p.2 ≠ f) → f ∈ (runPlan uid st ps).disk := by
  intro ps
  induction ps with
  | nil => intro st f hf _; exact hf
  | cons p rest ih =>
    rcases p with ⟨idx, old⟩
    intro st f hf hns
    have hold : old ≠ f := hns (idx, old) (List.mem_cons_self _ _)
    have hstep : f ∈ (renameStep uid st idx old).disk := by
      simp only [renameStep]
      split_ifs with h1 h2 h3
      · exact hf
      · exact hf
      · exact List.mem_cons_of_mem _
          ((List.mem_erase_of_ne fun h => hold h.symm).mpr hf)
      · exact hf
    exact ih _ f hstep fun q hq => hns q (List.mem_cons_of_mem _ hq)

/-- When every target of a plan already names an existing file, the loop
is pure skipping: the state is unchanged. -/
theorem runPlan_eq_of_targets_mem (uid : String) :
    ∀ (ps : List (Nat × String)) (st : FState),
      (∀ p ∈ ps, targetName uid p.1 ∈ st.disk) → runPlan uid st ps = st := by
  intro ps
  induction ps with
  | nil => intro st _; rfl
  | cons p rest ih =>
    rcases p with ⟨idx, old⟩
    intro st hmem
    have ht : targetName uid idx ∈ st.disk := hmem (idx, old) (List.mem_cons_self _ _)
    have hstep : renameStep uid st idx old = st := by
      simp only [renameStep]
      split_ifs with h1 h2 h3 <;> first | rfl | exact absurd ⟨ht, h2⟩ h1
    rw [runPlan, hstep]
    exact ih st fun q hq => hmem q (List.mem_cons_of_mem _ hq)

/-- The second component of an enumerated entry is a member of the
underlying list. -/
theorem snd_mem_of_mem_enumFrom {α : Type} :
    ∀ (l : List α) (k : Nat) (p : Nat × α), p ∈ l.enumFrom k → p.2 ∈ l := by
  intro l
  induction l with
  | nil => intro k p hp; simp [List.enumFrom] at hp
  | cons a t ih =>
    intro k p hp
    rcases List.mem_cons.mp hp with heq | hmem
    · subst heq; exact List.mem_cons_self _ _
    · exact List.mem_cons_of_mem _ (ih (k + 1) p hmem)

/-- A sorted list without duplicates is strictly sorted. -/
theorem sorted_strLt_of_sorted_nodup {l : List String}
    (hs : List.Sorted strLe l) (hnd : l.Nodup) : List.Sorted strLt l :=
  (hs.and hnd).imp fun h =>
    lt_of_le_of_ne h.1 fun hd => h.2 (String.ext hd)

/-- In a strictly sorted list, the 1-based position handed out by
`enumerate` is the start index plus the number of strictly smaller
elements: enumeration order is rank in the sorted order. -/
theorem enumFrom_fst_eq_countP :
    ∀ (L : List String), List.Sorted strLt L →
      ∀ (k : Nat) (p : Nat × String), p ∈ L.enumFrom k →
        p.1 = k + L.countP fun g => decide (strLt g p.2) := by
  intro L
  induction L with
  | nil => intro _ k p hp; simp [List.enumFrom] at hp
  | cons a t ih =>
    intro hs k p hp
    rw [List.sorted_cons] at hs
    rcases hs with ⟨ha, ht⟩
    rcases List.mem_cons.mp hp with heq | hmem
    · subst heq
      have h0 : (a :: t).countP (fun g => decide (strLt g a)) = 0 := by
        rw [List.countP_eq_zero]
        intro g hg hlt
        rcases List.mem_cons.mp hg with rfl | hgt
        · exact absurd (of_decide_eq_true hlt) (lt_irrefl g.data)
        · exact absurd (of_decide_eq_true hlt) (lt_asymm (ha g hgt))
      simp [h0]
    · have hIH := ih ht (k + 1) p hmem
      have hp2 : p.2 ∈ t := snd_mem_of_mem_enumFrom t (k + 1) p hmem
      have halt : decide (strLt a p.2) = true := decide_eq_true (ha p.2 hp2)
      simp only [List.countP_cons, halt, if_true]
      omega

/-- Every generated target name passes the `.png` filter: it literally
ends in the lowercase suffix `.png`. -/
theorem isPngName_targetName (uid : String) (idx : Nat) :
    isPngName (targetName uid idx) = true := by
  unfold isPngName lowerChars
  apply List.isSuffixOf_iff_suffix.mpr
  have hdata : (targetName uid idx).data =
      (uid ++ "_courbe" ++ Nat.repr idx).data ++ ".png".data := String.data_append _ _
  rw [hdata, List.map_append]
  have hlower : List.map Char.toLower ".png".data = ".png".data := by decide
  rw [hlower]
  exact List.suffix_append _ _

/-- The non-`.png` remainder of a listing contributes nothing to the
`.png` filter. -/
theorem pngFilter_nonPng (files : List String) :
    pngFilter (files.filter fun f => !isPngName f) = [] := by
  unfold pngFilter
  rw [List.filter_filter]
  rw [List.filter_eq_nil_iff]
  intro a _ hcontradict
  rw [Bool.and_eq_true] at hcontradict
  rcases hcontradict with ⟨h1, h2⟩
  rw [h1] at h2
  exact Bool.false_ne_true (by simp at h2)

/-- Invariant of a collision-free rename loop.  If the folder's disk is a
duplicate-free permutation of `C ++ (M ++ R)` — the target names already
produced, the sorted `.png` names still to process, and the untouched rest
— then processing `M` from index `k` turns the disk into a permutation of
`C ++ (targets k..k+|M|-1 ++ R)`, still duplicate-free: every processed
file either already bears its target name or is renamed to it. -/
theorem runPlan_clean_perm (uid : String) :
    ∀ (M : List String) (k : Nat) (st : FState) (C R : List String),
      st.disk.Nodup →
      st.disk.Perm (C ++ (M ++ R)) →
      planCollisionFree uid st (M.enumFrom k) = true →
      (runPlan uid st (M.enumFrom k)).disk.Perm
          (C ++ ((List.range' k M.length).map (targetName uid) ++ R)) ∧
        (runPlan uid st (M.enumFrom k)).disk.Nodup := by
  intro M
  induction M with
  | nil =>
    intro k st C R hnd hperm _
    simpa [List.enumFrom, runPlan] using ⟨hperm, hnd⟩
  | cons old M' ih =>
    intro k st C R hnd hperm hcf
    rw [List.cons_append] at hperm
    have hcf' := hcf
    rw [List.enumFrom, planCollisionFree, Bool.and_eq_true] at hcf'
    rcases hcf' with ⟨hnc, hrest⟩
    have hnocoll : ¬(targetName uid k ∈ st.disk ∧ old ≠ targetName uid k) := by
      intro hco
      rw [Bool.not_eq_true', Bool.and_eq_false_iff] at hnc
      rcases hnc with h | h
      · exact absurd (decide_eq_true hco.1) (by simp [h])
      · exact absurd (decide_eq_true hco.2) (by simp [h])
    have hlist : (C ++ [targetName uid k]) ++
        (List.map (targetName uid) (List.range' (k + 1) M'.length) ++ R) =
        C ++ (List.map (targetName uid) (List.range' k (M'.length + 1)) ++ R) := by
      simp [List.range'_succ]
    by_cases heq : old = targetName uid k
    · -- the file already bears its target name: the step is a no-op
      have hstep : renameStep uid st k old = st := by
        simp only [renameStep]
        rw [if_neg (fun hco => hco.2 heq), if_pos heq]
      rw [hstep] at hrest
      have hperm' : st.disk.Perm ((C ++ [targetName uid k]) ++ (M' ++ R)) := by
        rw [← List.append_cons, ← heq]
        exact hperm
      have hres := ih (k + 1) st (C ++ [targetName uid k]) R hnd hperm' hrest
      rw [List.enumFrom, runPlan, hstep, List.length_cons]
      refine ⟨hres.1.trans ?_, hres.2⟩
      rw [← hlist]
    · -- a genuine rename: the target is fresh, the source is replaced
      have htfresh : targetName uid k ∉ st.disk := fun hmem => hnocoll ⟨hmem, heq⟩
      have holdmem : old ∈ st.disk := by
        apply hperm.symm.subset
        exact List.mem_append_of_mem_right C (List.mem_cons_self _ _)
      have hstep : renameStep uid st k old =
          FState.mk (targetName uid k :: st.disk.erase old) (st.renamed + 1) := by
        simp only [renameStep]
        rw [if_neg hnocoll, if_neg heq, if_pos holdmem]
      rw [hstep] at hrest
      have hndR : (C ++ (old :: (M' ++ R))).Nodup := hperm.nodup_iff.mp hnd
      have holdC : old ∉ C := by
        intro hC
        exact (List.nodup_append.mp hndR).2.2 hC (List.mem_cons_self _ _)
      have herase : (st.disk.erase old).Perm (C ++ (M' ++ R)) := by
        have h1 := hperm.erase old
        rw [List.erase_append_right _ holdC, List.erase_cons_head] at h1
        exact h1
      have hnd' : (targetName uid k :: st.disk.erase old).Nodup := by
        rw [List.nodup_cons]
        exact ⟨fun hmem => htfresh (List.mem_of_mem_erase hmem), hnd.erase old⟩
      have hperm' : (targetName uid k :: st.disk.erase old).Perm
          ((C ++ [targetName uid k]) ++ (M' ++ R)) := by
        rw [← List.append_cons]
        exact (herase.cons _).trans List.perm_middle.symm
      have hres := ih (k + 1) (FState.mk (targetName uid k :: st.disk.erase old)
          (st.renamed + 1)) (C ++ [targetName uid k]) R hnd' hperm' hrest
      rw [List.enumFrom, runPlan, hstep, List.length_cons]
      refine ⟨hres.1.trans ?_, hres.2⟩
      rw [← hlist]

/-- After a collision-free first pass over a duplicate-free folder, a
second pass executes zero renames: the first pass leaves exactly the
target names `<id>_courbe1.png .. <id>_courbe<n>.png` as the folder's
`.png` set, so every entry of the second pass finds its target already
present (as itself or as another file) and is skipped. -/
theorem second_pass_zero (uid : String) (files : List String)
    (hnd : files.Nodup)
    (hcf : planCollisionFree uid (FState.mk files 0) (planOf files) = true) :
    (renameFolderFiles uid (renameFolderFiles uid files).disk).renamed = 0 := by
  have hLperm : (sortStrings (pngFilter files)).Perm (pngFilter files) :=
    List.perm_insertionSort strLe _
  have hfiles : files.Perm
      ([] ++ (sortStrings (pngFilter files) ++ files.filter fun f => !isPngName f)) := by
    rw [List.nil_append]
    exact ((hLperm.append_right _).trans (List.filter_append_perm isPngName files)).symm
  have hclean := runPlan_clean_perm uid (sortStrings (pngFilter files)) 1
    (FState.mk files 0) [] (files.filter fun f => !isPngName f) hnd hfiles hcf
  set n := (sortStrings (pngFilter files)).length with hn
  set tgts := (List.range' 1 n).map (targetName uid) with htgts
  have hperm1 : (renameFolderFiles uid files).disk.Perm
      ([] ++ (tgts ++ files.filter fun f => !isPngName f)) := hclean.1
  set disk1 := (renameFolderFiles uid files).disk with hdisk1
  -- the second listing's `.png` set is exactly the target set
  have hpng1 : (pngFilter disk1).Perm tgts := by
    have h1 : (pngFilter disk1).Perm (pngFilter ([] ++ (tgts ++
        files.filter fun f => !isPngName f))) := hperm1.filter _
    have h2 : pngFilter ([] ++ (tgts ++ files.filter fun f => !isPngName f)) = tgts := by
      simp only [List.nil_append]
      unfold pngFilter
      rw [List.filter_append]
      have h3 : tgts.filter isPngName = tgts := by
        rw [List.filter_eq_self]
        intro a ha
        rcases List.mem_map.mp ha with ⟨j, -, rfl⟩
        exact isPngName_targetName uid j
      have h4 := pngFilter_nonPng files
      unfold pngFilter at h4
      rw [h3, h4, List.append_nil]
    rw [h2] at h1
    exact h1
  have hlen2 : (sortStrings (pngFilter disk1)).length = n := by
    have h1 : (sortStrings (pngFilter disk1)).Perm tgts :=
      (List.perm_insertionSort strLe _).trans hpng1
    rw [h1.length_eq, htgts, List.length_map, List.length_range']
  have hmemtargets : ∀ p ∈ (sortStrings (pngFilter disk1)).enumFrom 1,
      targetName uid p.1 ∈ disk1 := by
    intro p hp
    rcases p with ⟨i, x⟩
    rcases List.mem_enumFrom hp with ⟨h1i, h2i, -⟩
    rw [hlen2] at h2i
    have hin : i ∈ List.range' 1 n := List.mem_range'_1.mpr ⟨h1i, h2i⟩
    have htin : targetName uid i ∈ tgts := List.mem_map_of_mem _ hin
    apply hperm1.symm.subset
    exact List.mem_append_of_mem_right [] (List.mem_append_of_mem_left _ htin)
  have hrun : renameFolderFiles uid disk1 = FState.mk disk1 0 :=
    runPlan_eq_of_targets_mem uid
      ((sortStrings (pngFilter disk1)).enumFrom 1) (FState.mk disk1 0) hmemtargets
  rw [hrun]

/-- The first component of `runFolders`, field by field, is the sum of the
per-folder contributions, and the second component is the folder list with
each folder's files replaced by what its iteration leaves on disk. -/
theorem runFolders_parts (df : List Record) :
    ∀ l : List Folder,
      (runFolders df l).2 =
        l.map (fun fl => Folder.mk fl.name (processOne df fl).newFiles) ∧
      (runFolders df l).1.renamed =
        (l.map fun fl => (processOne df fl).renamedD).sum := by
  intro l
  induction l with
  | nil => exact ⟨rfl, rfl⟩
  | cons fl rest ih =>
    refine ⟨?_, ?_⟩
    · simp only [runFolders, List.map_cons]
      rw [ih.1]
    · simp only [runFolders, List.map_cons, List.sum_cons]
      rw [ih.2]

/-- The orchestrator's choice of identifier for a folder depends only on
the folder's name and the registry: `processOne` renames with
`matchedId` when it is `some`, and leaves the files untouched (renaming
nothing) when it is `none`. -/
theorem processOne_eq_matchedId (df : List Record) (fl : Folder) :
    (∀ uid, matchedId df fl.name = some uid →
      (processOne df fl).renamedD = (renameFolderFiles uid fl.files).renamed ∧
      (processOne df fl).newFiles = (renameFolderFiles uid fl.files).disk) ∧
    (matchedId df fl.name = none →
      (processOne df fl).renamedD = 0 ∧ (processOne df fl).newFiles = fl.files) := by
  by_cases hpref : hasTaxanPrefix fl.name = true
  · cases hparse : parse_datetime_from_foldername fl.name with
    | none =>
      constructor
      · intro uid h
        simp [matchedId, hpref, hparse] at h
      · intro h
        simp [processOne, hpref, hparse]
    | some dt =>
      cases hmc : matchCandidates df dt with
      | nil =>
        constructor
        · intro uid h
          simp [matchedId, hpref, hparse, hmc] at h
        · intro h
          simp [processOne, hpref, hparse, hmc]
      | cons c rest =>
        constructor
        · intro uid h
          simp only [matchedId, hpref, if_pos, hparse, hmc, List.head?,
            Option.map_some'] at h
          rcases Option.some.inj h with rfl
          simp [processOne, hpref, hparse, hmc]
        · intro h
          simp [matchedId, hpref, hparse, hmc] at h
  · constructor
    · intro uid h
      simp [matchedId, hpref] at h
    · intro h
      simp [processOne, hpref]

/-- Sorting the capture-root listing is stable under processing: the
processed folder list keeps the (sorted) names, so re-sorting it on the
second run is the identity. -/
theorem sortFolders_runFolders (df : List Record) (folders : List Folder) :
    sortFolders ((runFolders df (sortFolders folders)).2) =
      (runFolders df (sortFolders folders)).2 := by
  rw [(runFolders_parts df (sortFolders folders)).1]
  apply List.Sorted.insertionSort_eq
  have hs : List.Sorted folderLe (sortFolders folders) :=
    List.sorted_insertionSort folderLe folders
  rw [List.Sorted, List.pairwise_map]
  exact hs.imp fun {a b} hab => hab

/-! ## Claim theorems -/

/-- C3: for every timestamp `t` and loaded registry, the matcher returns
exactly the records with `validFrom <= t <= validTo`; a record whose
`validFrom` is strictly after its `validTo` matches no timestamp, so an
inverted interval is tolerated by simply never matching. -/
theorem matcher_exact_interval_subset (df : List Record) (t : DT) (r : Record) :
    (r ∈ matchCandidates df t ↔ r ∈ df ∧ DT.le r.validFrom t ∧ DT.le t r.validTo) ∧
    (¬ DT.le r.validFrom r.validTo → r ∉ matchCandidates df t) := by
  have hmem : r ∈ matchCandidates df t ↔ r ∈ df ∧ DT.le r.validFrom t ∧ DT.le t r.validTo := by
    simp [matchCandidates, List.mem_filter]
  refine ⟨hmem, fun hlt hin => ?_⟩
  rcases hmem.mp hin with ⟨-, h1, h2⟩
  exact hlt (le_trans (α := Nat) h1 h2)

/-- Witness for C3 at concrete inputs: a record containing the timestamp
is returned, and a record with an inverted interval is never returned. -/
theorem matcher_exact_interval_subset_witness :
    (Record.mk "7" (DT.mk 2025 1 1 0 0 0 0) (DT.mk 2026 1 1 0 0 0 0) ∈
       matchCandidates [Record.mk "7" (DT.mk 2025 1 1 0 0 0 0) (DT.mk 2026 1 1 0 0 0 0)]
         (DT.mk 2025 6 3 14 14 57 0)) ∧
    Record.mk "9" (DT.mk 2026 1 1 0 0 0 0) (DT.mk 2025 1 1 0 0 0 0) ∉
      matchCandidates [Record.mk "9" (DT.mk 2026 1 1 0 0 0 0) (DT.mk 2025 1 1 0 0 0 0)]
        (DT.mk 2025 6 3 14 14 57 0) :=
  ⟨(matcher_exact_interval_subset _ _ _).1.mpr ⟨by decide, by decide, by decide⟩,
   (matcher_exact_interval_subset _ _ _).2 (by decide)⟩

/-- C5: when the candidate subset has more than one record, the
orchestrator uses the identifier of the first matching record in registry
load order (the head of the filtered list, not a tightest-interval
choice), increments the conflict counter exactly once for that folder, and
the run continues over the remaining folders. -/
theorem conflict_picks_first_in_load_order (df : List Record) (fl : Folder) (dt : DT)
    (c : Record) (rest : List Record) (more : List Folder)
    (hpref : hasTaxanPrefix fl.name = true)
    (hparse : parse_datetime_from_foldername fl.name = some dt)
    (hmatch : matchCandidates df dt = c :: rest) (hne : rest ≠ []) :
    processOne df fl =
      FolderResult.mk 1 (renameFolderFiles c.id fl.files).renamed 0 1
        (renameFolderFiles c.id fl.files).disk ∧
    (runFolders df (fl :: more)).1.conflits = 1 + (runFolders df more).1.conflits := by
  have hone : processOne df fl =
      FolderResult.mk 1 (renameFolderFiles c.id fl.files).renamed 0 1
        (renameFolderFiles c.id fl.files).disk := by
    have hise : rest.isEmpty = false := by
      cases rest with
      | nil => exact absurd rfl hne
      | cons a l => rfl
    simp [processOne, hpref, hparse, hmatch, hise]
  refine ⟨hone, ?_⟩
  simp [runFolders, hone]

/-- Witness for C5: two overlapping records both contain the folder
timestamp; the first loaded one ("first") is used and one conflict is
counted. -/
theorem conflict_picks_first_in_load_order_witness :
    processOne
      [Record.mk "first" (DT.mk 2025 1 1 0 0 0 0) (DT.mk 2026 1 1 0 0 0 0),
       Record.mk "second" (DT.mk 2025 6 1 0 0 0 0) (DT.mk 2025 7 1 0 0 0 0)]
      (Folder.mk "taxan_2025-06-03-14-14-57" ["a.png"]) =
      FolderResult.mk 1
        (renameFolderFiles "first" ["a.png"]).renamed 0 1
        (renameFolderFiles "first" ["a.png"]).disk ∧
    (runFolders
      [Record.mk "first" (DT.mk 2025 1 1 0 0 0 0) (DT.mk 2026 1 1 0 0 0 0),
       Record.mk "second" (DT.mk 2025 6 1 0 0 0 0) (DT.mk 2025 7 1 0 0 0 0)]
      [Folder.mk "taxan_2025-06-03-14-14-57" ["a.png"]]).1.conflits =
    1 + (runFolders
      [Record.mk "first" (DT.mk 2025 1 1 0 0 0 0) (DT.mk 2026 1 1 0 0 0 0),
       Record.mk "second" (DT.mk 2025 6 1 0 0 0 0) (DT.mk 2025 7 1 0 0 0 0)] []).1.conflits :=
  conflict_picks_first_in_load_order
    [Record.mk "first" (DT.mk 2025 1 1 0 0 0 0) (DT.mk 2026 1 1 0 0 0 0),
     Record.mk "second" (DT.mk 2025 6 1 0 0 0 0) (DT.mk 2025 7 1 0 0 0 0)]
    (Folder.mk "taxan_2025-06-03-14-14-57" ["a.png"])
    (DT.mk 2025 6 3 14 14 57 0)
    (Record.mk "first" (DT.mk 2025 1 1 0 0 0 0) (DT.mk 2026 1 1 0 0 0 0))
    [Record.mk "second" (DT.mk 2025 6 1 0 0 0 0) (DT.mk 2025 7 1 0 0 0 0)] []
    (by decide) (by decide) (by decide) (by decide)

/-- C6: a registry row with a timestamp cell that neither accepted format
parses is dropped from the loaded set, and the remaining rows load exactly
as they would without it — an unparsable row never aborts the load. -/
theorem unparsable_row_dropped_load_completes (pre post : List RawRow) (row : RawRow)
    (h : unparsableCell row.regStr ∨ unparsableCell row.majStr) :
    loadRegistry (pre ++ row :: post) = loadRegistry pre ++ loadRegistry post := by
  unfold loadRegistry
  rw [List.filterMap_append, List.filterMap_cons]
  have hrow : (match parseCellStaged row.regStr, parseCellStaged row.majStr with
      | some a, some b => some (Record.mk row.id a b)
      | _, _ => none) = none := by
    rcases h with ⟨h1, -⟩ | ⟨h1, -⟩
    · simp [parseCellStaged, h1]
    · cases hreg : parseCellStaged row.regStr <;> simp [parseCellStaged, h1]
  rw [hrow]

/-- Witness for C6: a garbage middle row is dropped and the two
well-formed rows around it load as usual. -/
theorem unparsable_row_dropped_load_completes_witness :
    loadRegistry
      [RawRow.mk "1" "2025-05-28T14:14:21.712Z" "2025-05-28T15:00:00.000Z",
       RawRow.mk "2" "garbage" "2025-05-28T15:00:00.000Z",
       RawRow.mk "3" "2025-06-01T08:00:00.5Z" "2025-06-02T08:00:00.5Z"] =
    loadRegistry [RawRow.mk "1" "2025-05-28T14:14:21.712Z" "2025-05-28T15:00:00.000Z"] ++
    loadRegistry [RawRow.mk "3" "2025-06-01T08:00:00.5Z" "2025-06-02T08:00:00.5Z"] :=
  unparsable_row_dropped_load_completes
    [RawRow.mk "1" "2025-05-28T14:14:21.712Z" "2025-05-28T15:00:00.000Z"]
    [RawRow.mk "3" "2025-06-01T08:00:00.5Z" "2025-06-02T08:00:00.5Z"]
    (RawRow.mk "2" "garbage" "2025-05-28T15:00:00.000Z")
    (Or.inl ⟨by decide, by decide⟩)

/-- C7 (code bug): a row whose two timestamp cells are in the second
accepted format `%Y-%m-%dT%H:%M:%SZ` is nevertheless dropped.  The cell is
parsable under format 2 (first conjunct) and not under format 1 (second
conjunct), yet the loaded registry is empty (third conjunct): the
second-stage retry of lines 114-120 and 129-135 reads the column already
overwritten by the first `to_datetime`, so it re-parses `NaT` instead of
the original string, against the stated intent of the comment at line 113
("essayer sans les millisecondes" — try again without milliseconds). -/
theorem format2_row_dropped_by_staged_conversion :
    parseCellFmt2 "2025-06-03T14:00:00Z" = some (DT.mk 2025 6 3 14 0 0 0) ∧
    parseCellFmt1 "2025-06-03T14:00:00Z" = none ∧
    loadRegistry [RawRow.mk "42" "2025-06-03T14:00:00Z" "2025-06-03T15:00:00Z"] = [] :=
  ⟨by decide, by decide, by decide⟩

/-- C8 counterexample: a subdirectory named without the `taxan_` magic
word is skipped, but the unmatched counter is NOT incremented for it (the
claim says it is): the whole counter record stays at zero. -/
theorem missing_magic_word_not_counted :
    (runFolders [] [Folder.mk "alpha" ["x.png"]]).1.nonTrouves = 0 ∧
    (runFolders [] [Folder.mk "alpha" ["x.png"]]).1 = RunTotals.mk 0 0 0 0 :=
  ⟨by decide, by decide⟩

/-- C8 as amended: a subdirectory without the `taxan_` magic word is
skipped silently — not processed and not counted at all (the pre-filter at
line 176 runs before any counter is touched) — while a subdirectory with
the magic word but a malformed trailing timestamp is counted as processed
and as unmatched; in both cases the folder's files are untouched and the
run continues. -/
theorem invalid_name_folders_skipped (df : List Record) (fl : Folder) :
    (hasTaxanPrefix fl.name = false →
      processOne df fl = FolderResult.mk 0 0 0 0 fl.files) ∧
    (hasTaxanPrefix fl.name = true → parse_datetime_from_foldername fl.name = none →
      processOne df fl = FolderResult.mk 1 0 1 0 fl.files) := by
  constructor
  · intro h; simp [processOne, h]
  · intro h hparse; simp [processOne, h, hparse]

/-- Witness for C8 (amended) at concrete inputs: a folder with no magic
word, and a folder with the magic word but a malformed timestamp. -/
theorem invalid_name_folders_skipped_witness :
    processOne [] (Folder.mk "alpha" ["x.png"]) = FolderResult.mk 0 0 0 0 ["x.png"] ∧
    processOne [] (Folder.mk "taxan_banana" ["x.png"]) = FolderResult.mk 1 0 1 0 ["x.png"] :=
  ⟨(invalid_name_folders_skipped [] _).1 (by decide),
   (invalid_name_folders_skipped [] _).2 (by decide) (by decide)⟩

/-- C10: the scripts copy reads `args.tan_dir` (line 73, the evaluated
branch of the conditional expression) while its parser defines only
`excel` and `taxan_dir`, so every invocation dies at startup with an
uncaught `AttributeError` — before any precondition check, registry read
or rename — and the copy is not behaviorally equivalent to the main copy,
which completes normally on a well-formed environment. -/
theorem scripts_copy_attribute_error_at_startup :
    (∀ env : Env, scriptsMain env = Except.error "tan_dir") ∧
    "tan_dir" ∉ scriptsNamespaceAttrs ∧ "taxon_dir" ∉ scriptsNamespaceAttrs ∧
    (∃ env : Env, mainRun env = Except.ok (RunTotals.mk 0 0 0 0, [])) :=
  ⟨fun _ => rfl, by decide, by decide,
   ⟨Env.mk true true (Except.ok (requiredCols, [])) [], rfl⟩⟩

/-- C2 counterexample: running the tool twice with no intervening changes
can rename a file on the second pass.  Folder
`taxan_2025-06-03-14-14-57` holds `a.png` and `z_courbe1.png` and matches
user `z`.  First pass: `a.png → z_courbe1.png` is skipped (target exists),
`z_courbe1.png → z_courbe2.png` executes.  Second pass: `z_courbe1.png` is
now free, so `a.png → z_courbe1.png` executes — one additional rename,
where the claim says zero. -/
theorem second_run_renames_after_collision_skip :
    (runAll [Record.mk "z" (DT.mk 2025 1 1 0 0 0 0) (DT.mk 2026 1 1 0 0 0 0)]
      (runAll [Record.mk "z" (DT.mk 2025 1 1 0 0 0 0) (DT.mk 2026 1 1 0 0 0 0)]
        [Folder.mk "taxan_2025-06-03-14-14-57" ["a.png", "z_courbe1.png"]]).2).1.renamed
      = 1 ∧ (1 : Nat) ≠ 0 :=
  ⟨by decide, by decide⟩

/-- C2 as amended: for every folder set and registry, running the tool a
second time immediately after a completed first run, with no intervening
filesystem or registry changes, executes zero additional renames —
provided the first run skipped no rename because its target name already
existed (with duplicate-free folder listings, as on a real filesystem).
Without that proviso a skipped collision can free its target name later in
the first pass, and the second pass then executes that rename. -/
theorem second_run_renames_nothing_when_first_collision_free
    (df : List Record) (folders : List Folder)
    (h : ∀ fl ∈ folders, firstPassClean df fl = true) :
    (runAll df (runAll df folders).2).1.renamed = 0 := by
  unfold runAll
  have hmemS : ∀ fl ∈ sortFolders folders, firstPassClean df fl = true := fun fl hfl =>
    h fl ((List.perm_insertionSort folderLe folders).subset hfl)
  rw [sortFolders_runFolders df folders,
    (runFolders_parts df (sortFolders folders)).1,
    (runFolders_parts df _).2]
  apply List.sum_eq_zero
  intro x hx
  rcases List.mem_map.mp hx with ⟨gfl, hgfl, rfl⟩
  rcases List.mem_map.mp hgfl with ⟨fl, hfl, rfl⟩
  have hclean := hmemS fl hfl
  rw [firstPassClean, Bool.and_eq_true] at hclean
  rcases hclean with ⟨hnd', hmatch⟩
  have hnd : fl.files.Nodup := of_decide_eq_true hnd'
  cases hmid : matchedId df fl.name with
  | none =>
    exact (processOne_eq_matchedId df
      (Folder.mk fl.name (processOne df fl).newFiles)).2 hmid |>.1
  | some uid =>
    rw [hmid] at hmatch
    have hfirst := (processOne_eq_matchedId df fl).1 uid hmid
    have hsecond := (processOne_eq_matchedId df
      (Folder.mk fl.name (processOne df fl).newFiles)).1 uid hmid
    rw [hsecond.1]
    have hfiles2 : (Folder.mk fl.name (processOne df fl).newFiles).files =
        (renameFolderFiles uid fl.files).disk := hfirst.2
    rw [hfiles2]
    exact second_pass_zero uid fl.files hnd hmatch

/-- Witness for C2 (amended) at a concrete clean input: the spec's own
scenario (folder with `b.png`, `a.png`, one matching user) renames both
files on the first pass and nothing on the second. -/
theorem second_run_renames_nothing_when_first_collision_free_witness :
    (∀ fl ∈ [Folder.mk "taxan_2025-06-03-14-14-57" ["b.png", "a.png"]],
      firstPassClean
        [Record.mk "42" (DT.mk 2025 6 3 14 0 0 0) (DT.mk 2025 6 3 15 0 0 0)] fl = true) ∧
    (runAll [Record.mk "42" (DT.mk 2025 6 3 14 0 0 0) (DT.mk 2025 6 3 15 0 0 0)]
      (runAll [Record.mk "42" (DT.mk 2025 6 3 14 0 0 0) (DT.mk 2025 6 3 15 0 0 0)]
        [Folder.mk "taxan_2025-06-03-14-14-57" ["b.png", "a.png"]]).2).1.renamed = 0 :=
  ⟨by decide,
   second_run_renames_nothing_when_first_collision_free
     [Record.mk "42" (DT.mk 2025 6 3 14 0 0 0) (DT.mk 2025 6 3 15 0 0 0)]
     [Folder.mk "taxan_2025-06-03-14-14-57" ["b.png", "a.png"]] (by decide)⟩

/-- C4: the rename plan pairs each `.png` file (case-insensitive
extension) with `<id>_courbe<n>.png` where `n` is the file's 1-based rank
in ascending lexicographic order of the original names: the plan is the
same for any two listings of the same file set (independence from
filesystem listing order, hence stability across runs), and each entry's
target index is one plus the number of strictly smaller `.png` names. -/
theorem plan_ranks_by_lexicographic_order (uid : String) (files files2 : List String)
    (hperm : files.Perm files2) (hnd : files.Nodup) :
    renamePlan uid files = renamePlan uid files2 ∧
    ∀ p ∈ renamePlan uid files,
      p.2 = targetName uid (1 + (pngFilter files).countP fun g => decide (strLt g p.1)) := by
  constructor
  · have hpf : (pngFilter files).Perm (pngFilter files2) := hperm.filter _
    have hp : (sortStrings (pngFilter files)).Perm (sortStrings (pngFilter files2)) :=
      ((List.perm_insertionSort strLe _).trans hpf).trans
        (List.perm_insertionSort strLe _).symm
    have heq : sortStrings (pngFilter files) = sortStrings (pngFilter files2) :=
      List.eq_of_perm_of_sorted hp (List.sorted_insertionSort strLe _)
        (List.sorted_insertionSort strLe _)
    unfold renamePlan planOf
    rw [heq]
  · intro p hp
    rcases List.mem_map.mp hp with ⟨q, hq, rfl⟩
    have hndL : (sortStrings (pngFilter files)).Nodup :=
      ((List.perm_insertionSort strLe _).nodup_iff).mpr (hnd.filter _)
    have hstrict : List.Sorted strLt (sortStrings (pngFilter files)) :=
      sorted_strLt_of_sorted_nodup (List.sorted_insertionSort strLe _) hndL
    have hidx := enumFrom_fst_eq_countP _ hstrict 1 q hq
    have hcount : (sortStrings (pngFilter files)).countP
        (fun g => decide (strLt g q.2)) =
        (pngFilter files).countP fun g => decide (strLt g q.2) :=
      (List.perm_insertionSort strLe _).countP_eq _
    simp only [hidx, hcount]

/-- Witness for C4 at the specification's own scenario: folder listing
`b.png`, `a.png` (and its permutation) both plan
`a.png → 42_courbe1.png`, `b.png → 42_courbe2.png`. -/
theorem plan_ranks_by_lexicographic_order_witness :
    renamePlan "42" ["b.png", "a.png"] = renamePlan "42" ["a.png", "b.png"] ∧
    renamePlan "42" ["b.png", "a.png"] =
      [("a.png", "42_courbe1.png"), ("b.png", "42_courbe2.png")] :=
  ⟨(plan_ranks_by_lexicographic_order "42" ["b.png", "a.png"] ["a.png", "b.png"]
      (by decide) (by decide)).1, by decide⟩

/-- C9: the process exits with a non-zero status exactly when a fatal
precondition fails (registry file missing, capture root missing,
unreadable registry, required columns absent); when the run completes the
exit status is zero, whatever the unmatched and conflict counters say. -/
theorem exit_nonzero_iff_fatal_precondition (env : Env) :
    mainExit env ≠ 0 ↔ FatalPrecondition env := by
  rcases env with ⟨ef, td, er, fs⟩
  unfold mainExit mainRun FatalPrecondition
  cases ef
  · simp
  · cases td
    · simp
    · cases er with
      | error e => simp
      | ok p =>
        rcases p with ⟨cols, rows⟩
        by_cases hall : requiredCols.all (fun c => decide (c ∈ cols)) = true
        · have hcols : ∀ c ∈ requiredCols, c ∈ cols := by
            intro c hc
            simpa using List.all_eq_true.mp hall c hc
          simp only [hall]
          simp [hcols]
          intro c hc
          exact hcols c hc
        · have hall' : requiredCols.all (fun c => decide (c ∈ cols)) = false :=
            Bool.eq_false_iff.mpr hall
          have hex : ∃ c ∈ requiredCols, c ∉ cols := by
            by_contra hno
            push_neg at hno
            exact hall (List.all_eq_true.mpr fun c hc => by simpa using hno c hc)
          simp [hall']
          exact hex

/-- Witness for C9 at concrete environments: a completed run with one
unmatched folder still exits 0, and a missing registry file exits
non-zero. -/
theorem exit_nonzero_iff_fatal_precondition_witness :
    mainExit (Env.mk true true (Except.ok (requiredCols, []))
        [Folder.mk "taxan_banana" ["x.png"]]) = 0 ∧
    (runAll (loadRegistry []) [Folder.mk "taxan_banana" ["x.png"]]).1.nonTrouves = 1 ∧
    mainExit (Env.mk false true (Except.ok (requiredCols, [])) []) ≠ 0 :=
  ⟨by decide, by decide,
   (exit_nonzero_iff_fatal_precondition
      (Env.mk false true (Except.ok (requiredCols, [])) [])).mpr (Or.inl rfl)⟩

/-- C1 counterexample: a rename collision (target `z_courbe1.png` exists
and differs from source `a.png`) is skipped — the source keeps its name —
but it is NOT counted: the four run counters after this run equal those of
a run with no collision at all (one folder, one executed rename, nothing
else), so no counter of the program reflects the skipped collision. -/
theorem collision_skip_not_counted :
    targetName "z" 1 = "z_courbe1.png" ∧
    "z_courbe1.png" ∈ ["a.png", "z_courbe1.png"] ∧
    "a.png" ≠ "z_courbe1.png" ∧
    "a.png" ∈ (processOne
       [Record.mk "z" (DT.mk 2025 1 1 0 0 0 0) (DT.mk 2026 1 1 0 0 0 0)]
       (Folder.mk "taxan_2025-06-03-14-14-57" ["a.png", "z_courbe1.png"])).newFiles ∧
    (runFolders [Record.mk "z" (DT.mk 2025 1 1 0 0 0 0) (DT.mk 2026 1 1 0 0 0 0)]
       [Folder.mk "taxan_2025-06-03-14-14-57" ["a.png", "z_courbe1.png"]]).1 =
      RunTotals.mk 1 1 0 0 ∧
    (runFolders [Record.mk "z" (DT.mk 2025 1 1 0 0 0 0) (DT.mk 2026 1 1 0 0 0 0)]
       [Folder.mk "taxan_2025-06-03-14-14-57" ["b.png"]]).1 =
      RunTotals.mk 1 1 0 0 :=
  ⟨by decide, by decide, by decide, by decide, by decide, by decide⟩

/-- C1 as amended: a rename is never executed when the target name exists
on disk and differs from the source — the entry is skipped with the whole
folder state (disk and counters) unchanged; the collision is logged only,
no program counter records it.  Consequently a file that is never a
source of the plan is still on disk after the loop: no pre-existing file
with a different original name is ever overwritten. -/
theorem rename_skips_existing_target_and_never_overwrites :
    (∀ (uid : String) (st : FState) (idx : Nat) (old : String),
      targetName uid idx ∈ st.disk → old ≠ targetName uid idx →
      renameStep uid st idx old = st) ∧
    (∀ (uid : String) (files : List String) (f : String),
      f ∈ files → (∀ p ∈ planOf files, p.2 ≠ f) →
      f ∈ (renameFolderFiles uid files).disk) := by
  constructor
  · intro uid st idx old h1 h2
    simp only [renameStep]
    split_ifs with hc hq <;> first | rfl | exact absurd ⟨h1, h2⟩ hc
  · intro uid files f hf hns
    exact mem_disk_runPlan_of_not_source uid (planOf files) (FState.mk files 0) f hf hns

/-- Witness for C1 (amended) at concrete inputs: the colliding entry is
skipped with the state unchanged, and a non-source file survives the
loop. -/
theorem rename_skips_existing_target_and_never_overwrites_witness :
    renameStep "z" (FState.mk ["a.png", "z_courbe1.png"] 0) 1 "a.png" =
      FState.mk ["a.png", "z_courbe1.png"] 0 ∧
    "keep.txt" ∈ (renameFolderFiles "z" ["keep.txt", "b.png"]).disk :=
  ⟨rename_skips_existing_target_and_never_overwrites.1 "z"
      (FState.mk ["a.png", "z_courbe1.png"] 0) 1 "a.png" (by decide) (by decide),
   rename_skips_existing_target_and_never_overwrites.2 "z"
      ["keep.txt", "b.png"] "keep.txt" (by decide) (by decide)⟩

end RenameCourbes
